import Mathlib

/-!
Verification of the capability-descriptor contract of
`src/third_party/codec2/include/config.h` (the meshcore-open vendored
codec configuration header) against its natural-language specification.

The header itself is a flat table of macro definitions; the surrounding
descriptor, resolver and fallback machinery described by the specification
is not shipped under `src/`, so those parts are modelled from the
specification text, as marked in each doc comment.
-/

namespace MeshcoreConfig

instance {ε α : Type} [DecidableEq ε] [DecidableEq α] : DecidableEq (Except ε α)
  | .ok a, .ok b =>
    if h : a = b then .isTrue (by rw [h]) else .isFalse (by intro he; cases he; exact h rfl)
  | .error e, .error f =>
    if h : e = f then .isTrue (by rw [h]) else .isFalse (by intro he; cases he; exact h rfl)
  | .ok _, .error _ => .isFalse (by intro he; cases he)
  | .error _, .ok _ => .isFalse (by intro he; cases he)

/-- The macro table of `config.h`, in source order: each flag name with the
integer value the header explicitly defines for it. -/
def configEntries : List (String × Int) :=
  [("SIZEOF_INT", 4), ("HAVE_STDLIB_H", 1), ("HAVE_STRING_H", 1),
   ("HAVE_FLOOR", 1), ("HAVE_CEIL", 1), ("HAVE_MEMSET", 1),
   ("HAVE_POW", 1), ("HAVE_SQRT", 1), ("HAVE_SIN", 1),
   ("HAVE_COS", 1), ("HAVE_ATAN2", 1), ("HAVE_LOG10", 1),
   ("HAVE_ROUND", 1), ("HAVE_GETOPT", 0)]

/-- The thirteen boolean capability flag names of the header, in source
order (every recognized name except the integer width `SIZEOF_INT`). -/
def capabilityNames : List String :=
  ["HAVE_STDLIB_H", "HAVE_STRING_H", "HAVE_FLOOR", "HAVE_CEIL",
   "HAVE_MEMSET", "HAVE_POW", "HAVE_SQRT", "HAVE_SIN", "HAVE_COS",
   "HAVE_ATAN2", "HAVE_LOG10", "HAVE_ROUND", "HAVE_GETOPT"]

/-- The closed set of recognized flag names of the external-interface
table: the integer width plus the thirteen boolean capability flags. -/
def recognizedNames : List String := "SIZEOF_INT" :: capabilityNames

/-- Modelled from the spec: the error taxonomy of the configuration layer.
`ConfigurationError` covers a missing required flag, an unsupported
integer width, an unrecognized query name, and the fallback option
parser's rejection of unsupported input shapes. -/
inductive ConfigurationError
  | missingFlag (name : String)
  | unsupportedWidth (w : Int)
  | unknownFlag (name : String)
  | longOptionUnsupported (token : List Char)
  | missingOptionValue (c : Char)
deriving DecidableEq

/-- Modelled from the spec: the capability descriptor is the validated
aggregate of the configuration table, immutable after construction. -/
structure CapabilityDescriptor where
  entries : List (String × Int)
deriving DecidableEq

/-- Modelled from the spec: the integer widths the resolver has
fallback/native code paths for. -/
def supportedWidths : List Int := [2, 4, 8]

/-- Modelled from the spec: descriptor construction validates that every
recognized flag has an explicit value in the source configuration (no
implicit default) and that the integer width is a supported value,
failing with a `ConfigurationError` otherwise. -/
def mkDescriptor (cfg : List (String × Int)) :
    Except ConfigurationError CapabilityDescriptor :=
  match recognizedNames.find? (fun n => (cfg.lookup n).isNone) with
  | some n => .error (.missingFlag n)
  | none =>
    match cfg.lookup "SIZEOF_INT" with
    | none => .error (.missingFlag "SIZEOF_INT")
    | some w =>
      if w ∈ supportedWidths then .ok ⟨cfg⟩ else .error (.unsupportedWidth w)

/-- The descriptor built from the shipped `config.h` table. -/
def shippedDescriptor : CapabilityDescriptor := ⟨configEntries⟩

/-- Modelled from the spec: the query surface of the descriptor. A name in
the closed recognized set answers with the truthiness of its configured
value; an unrecognized name raises a `ConfigurationError` rather than
being silently ignored. -/
def isAvailable (d : CapabilityDescriptor) (name : String) :
    Except ConfigurationError Bool :=
  if name ∈ recognizedNames then
    match d.entries.lookup name with
    | some v => .ok (v != 0)
    | none => .error (.missingFlag name)
  else .error (.unknownFlag name)

/-- Modelled from the spec: the accessor for the native integer byte
width recorded by the descriptor. -/
def intWidth (d : CapabilityDescriptor) : Int :=
  (d.entries.lookup "SIZEOF_INT").getD 0

/-- Pointwise update of one flag value in a source configuration, used to
state that a flag is configuration data rather than a hard-coded
constant. -/
def setFlag (cfg : List (String × Int)) (name : String) (v : Int) :
    List (String × Int) :=
  cfg.map fun p => if p.1 == name then (p.1, v) else p

/-- C1: constructing the descriptor from the shipped configuration
succeeds, and for every recognized flag, omitting that one flag from the
configuration makes construction fail with a `ConfigurationError`
reporting that flag as missing. -/
theorem mkDescriptor_total_and_omission_fails :
    mkDescriptor configEntries = .ok shippedDescriptor ∧
    (recognizedNames.all fun n =>
      match mkDescriptor (configEntries.filter fun p => p.1 != n) with
      | .error (.missingFlag m) => m == n
      | _ => false) = true := by
  constructor
  · rfl
  · rfl

/-- C2: the shipped descriptor's integer width is 4, a positive
power-of-two byte count within the resolver's supported widths, so
construction does not fail on the width clause. -/
theorem intWidth_shipped_supported :
    intWidth shippedDescriptor = 4 ∧
    intWidth shippedDescriptor ∈ supportedWidths ∧
    0 < intWidth shippedDescriptor ∧
    (∃ k : ℕ, intWidth shippedDescriptor = 2 ^ k) ∧
    mkDescriptor configEntries = .ok shippedDescriptor := by
  refine ⟨by decide, by decide, by decide, ⟨2, by decide⟩, rfl⟩

/-- Bool check that setting one capability flag to a given boolean value in
the shipped configuration yields a descriptor that still constructs and
answers that flag with exactly that value. -/
def flagConfigurable (n : String) (b : Bool) : Bool :=
  let cfg := setFlag configEntries n (if b then 1 else 0)
  decide (mkDescriptor cfg = .ok ⟨cfg⟩) &&
  decide (isAvailable ⟨cfg⟩ n = .ok b)

/-- C3: the shipped descriptor reports the option-parser capability
(`HAVE_GETOPT`) as unavailable, and every capability flag—`HAVE_GETOPT`
included—is independently configurable: setting it to either boolean
value in the source configuration yields a valid descriptor answering
with exactly that value, so the flag is configuration data, not a
hard-coded constant. -/
theorem getopt_disabled_and_configurable :
    isAvailable shippedDescriptor "HAVE_GETOPT" = .ok false ∧
    (capabilityNames.all fun n =>
      flagConfigurable n true && flagConfigurable n false) = true := by
  exact ⟨rfl, rfl⟩

/-- C4: the recognized name set is closed: the shipped descriptor defines
exactly the names of the external-interface table, a query for any name
outside that set raises `ConfigurationError` identifying the unrecognized
name, and every name inside the set is answered. -/
theorem recognized_names_closed (s : String) :
    shippedDescriptor.entries.map Prod.fst = recognizedNames ∧
    (s ∉ recognizedNames →
      isAvailable shippedDescriptor s = .error (.unknownFlag s)) ∧
    (s ∈ recognizedNames → ∃ b, isAvailable shippedDescriptor s = .ok b) := by
  refine ⟨rfl, ?_, ?_⟩
  · intro h
    simp only [isAvailable, if_neg h]
  · intro h
    fin_cases h <;> exact ⟨_, rfl⟩

/-- Witness for C4 at the concrete unrecognized name HAVE_FOO and the
recognized name HAVE_SQRT. -/
theorem recognized_names_closed_witness :
    ("HAVE_FOO" ∉ recognizedNames ∧
      isAvailable shippedDescriptor "HAVE_FOO" =
        .error (.unknownFlag "HAVE_FOO")) ∧
    ("HAVE_SQRT" ∈ recognizedNames ∧
      ∃ b, isAvailable shippedDescriptor "HAVE_SQRT" = .ok b) :=
  ⟨⟨by decide, (recognized_names_closed "HAVE_FOO").2.1 (by decide)⟩,
   ⟨by decide, (recognized_names_closed "HAVE_SQRT").2.2 (by decide)⟩⟩

/-- Modelled from the spec: the implementation the primitive resolver
selects for a capability—the platform-native primitive when the flag is
available, the portable fallback otherwise. -/
inductive ResolvedImpl
  | native
  | fallback
deriving DecidableEq

/-- Modelled from the spec: the resolver consults the descriptor once per
capability and wires the call site to the native primitive exactly when
the capability is available. -/
def resolveImpl (d : CapabilityDescriptor) (name : String) :
    Except ConfigurationError ResolvedImpl :=
  (isAvailable d name).map fun b => if b then .native else .fallback

/-- The capability flag names of the shipped header other than
`HAVE_GETOPT`. -/
def nativeCapabilityNames : List String :=
  capabilityNames.filter (· != "HAVE_GETOPT")

/-- C8: every capability flag of the shipped descriptor other than
`HAVE_GETOPT` is available, so the resolver dispatches each of those to
the native primitive, and `HAVE_GETOPT` is the only capability resolved
to a fallback. -/
theorem resolver_native_except_getopt :
    (nativeCapabilityNames.all fun n =>
      decide (isAvailable shippedDescriptor n = .ok true) &&
      decide (resolveImpl shippedDescriptor n = .ok .native)) = true ∧
    resolveImpl shippedDescriptor "HAVE_GETOPT" = .ok .fallback ∧
    (capabilityNames.all fun n =>
      decide (resolveImpl shippedDescriptor n = .ok .fallback) ==
        (n == "HAVE_GETOPT")) = true := by
  exact ⟨rfl, rfl, rfl⟩

/-- C10: every boolean capability flag of the shipped configuration has
the value exactly 0 or exactly 1, so numeric equality with 1 and boolean
truthiness coincide for every flag. -/
theorem capability_values_zero_or_one :
    (capabilityNames.all fun n =>
      match configEntries.lookup n with
      | some v => (v == 0 || v == 1) && ((v == 1) == (v != 0))
      | none => false) = true := by
  exact rfl

/-- Modelled from the spec: the operations a consumer may perform on a
constructed descriptor—availability queries by name and integer-width
accesses. -/
inductive DescriptorOp
  | queryFlag (name : String)
  | queryWidth
deriving DecidableEq

/-- The observable answer of one descriptor operation. -/
inductive OpResult
  | availability (r : Except ConfigurationError Bool)
  | width (w : Int)
deriving DecidableEq

/-- Modelled from the spec: executing one operation against the
descriptor state, returning the (possibly updated) state and the
answer. -/
def runOp (d : CapabilityDescriptor) : DescriptorOp → CapabilityDescriptor × OpResult
  | .queryFlag n => (d, .availability (isAvailable d n))
  | .queryWidth => (d, .width (intWidth d))

/-- Modelled from the spec: executing a sequence of operations, threading
the descriptor state through each step. -/
def runOps (d : CapabilityDescriptor) :
    List DescriptorOp → CapabilityDescriptor × List OpResult
  | [] => (d, [])
  | op :: ops =>
    let s := runOp d op
    let t := runOps s.1 ops
    (t.1, s.2 :: t.2)

/-- C5: the descriptor is immutable: after any sequence of queries the
descriptor state is unchanged, and every answer in the sequence equals
the answer computed against the descriptor as fixed at construction
time. -/
theorem descriptor_immutable (d : CapabilityDescriptor)
    (ops : List DescriptorOp) :
    (runOps d ops).1 = d ∧
    (runOps d ops).2 = ops.map (fun op => (runOp d op).2) := by
  induction ops with
  | nil => exact ⟨rfl, rfl⟩
  | cons op ops ih =>
    cases op <;>
      simpa [runOps, runOp] using ih

/-- The name of the include guard macro of `config.h`. -/
def guardName : String := "_CONFIGURATION_HEADER_GUARD_H_"

/-- One textual inclusion of `config.h` acting on the preprocessor macro
table: if the include guard is already defined the file expands to
nothing; otherwise it defines the guard (to no value) and every
configuration entry, exactly as the source file does. -/
def includeConfigHeader (defs : List (String × Option Int)) :
    List (String × Option Int) :=
  if (defs.lookup guardName).isSome then defs
  else defs ++ (guardName, none) :: configEntries.map (fun p => (p.1, some p.2))

/-- In any macro table extended with the guard definition, the guard
looks up as defined. -/
theorem lookup_guard_isSome (l : List (String × Option Int))
    (r : List (String × Option Int)) :
    ((l ++ (guardName, (none : Option Int)) :: r).lookup guardName).isSome = true := by
  induction l with
  | nil => simp [List.lookup]
  | cons p l ih =>
    rcases Bool.eq_false_or_eq_true (guardName == p.1) with h | h
    · simp [List.lookup, h]
    · simp only [List.cons_append, List.lookup, h]
      exact ih

/-- Including the header twice equals including it once, from any
starting macro table. -/
theorem includeConfigHeader_idem (defs : List (String × Option Int)) :
    includeConfigHeader (includeConfigHeader defs) = includeConfigHeader defs := by
  by_cases h : ((defs.lookup guardName).isSome : Prop)
  · simp [includeConfigHeader, h]
  · have h1 : includeConfigHeader defs =
        defs ++ (guardName, none) :: configEntries.map (fun p => (p.1, some p.2)) := by
      simp [includeConfigHeader, h]
    rw [h1]
    simp [includeConfigHeader, lookup_guard_isSome]

/-- C9: inclusion of `config.h` is idempotent: for every number of
further inclusions after the first, the resulting macro table (defined
names and their values) equals that of a single inclusion—the include
guard makes repeated inclusion a no-op, so no redefinition occurs. -/
theorem includeConfigHeader_iterate (defs : List (String × Option Int))
    (n : ℕ) :
    includeConfigHeader^[n] (includeConfigHeader defs) =
      includeConfigHeader defs := by
  induction n with
  | zero => rfl
  | succ n ih =>
    rw [Function.iterate_succ_apply, includeConfigHeader_idem, ih]

/-- Modelled from the spec: the error raised when a fallback math routine
is invoked outside its valid domain. -/
inductive NumericDomainError
  | negativeSqrt (x : ℚ)
deriving DecidableEq

/-- One Newton-Raphson step for the square root of a. -/
def newtonStep (a x : ℚ) : ℚ := (x + a / x) / 2

/-- Modelled from the spec: Newton-Raphson iteration for the square root,
iterated to convergence within a fixed epsilon, with a fuel bound on the
number of steps. -/
def newtonIter : ℕ → ℚ → ℚ → ℚ
  | 0, _, x => x
  | n + 1, a, x =>
    if |x * x - a| ≤ 1 / 10 ^ 24 then x else newtonIter n a (newtonStep a x)

/-- Modelled from the spec: the fallback square root. A negative input
raises `NumericDomainError`; a non-negative input is answered by
Newton-Raphson iteration seeded from a magnitude estimate. -/
def fallbackSqrt (a : ℚ) : Except NumericDomainError ℚ :=
  if a < 0 then .error (.negativeSqrt a)
  else if a = 0 then .ok 0
  else .ok (newtonIter 30 a (max a 1))

/-- One Newton-Raphson unfolding step of the iteration when the
convergence test has not yet been met. -/
theorem newtonIter_go (n : ℕ) (a x y : ℚ)
    (hc : ¬ |x * x - a| ≤ 1 / 10 ^ 24) (hy : newtonStep a x = y) :
    newtonIter (n + 1) a x = newtonIter n a y := by
  rw [newtonIter, if_neg hc, hy]

/-- The iteration stops as soon as the convergence test is met. -/
theorem newtonIter_stop (n : ℕ) (a x : ℚ)
    (hc : |x * x - a| ≤ 1 / 10 ^ 24) :
    newtonIter (n + 1) a x = x := by
  rw [newtonIter, if_pos hc]

/-- The exact rational value the fallback square root iteration computes
on the input 4. -/
theorem newtonIter_four_value :
    newtonIter 30 4 (max 4 1) =
      1716841910146256242328924544641 / 858420955073128121164462272320 := by
  rw [show (max (4 : ℚ) 1) = 4 from by norm_num]
  rw [show (30 : ℕ) = 29 + 1 from rfl,
    newtonIter_go 29 4 4 (5 / 2)
      (by rw [abs_of_nonneg (by norm_num)]; norm_num) (by norm_num [newtonStep])]
  rw [show (29 : ℕ) = 28 + 1 from rfl,
    newtonIter_go 28 4 (5 / 2) (41 / 20)
      (by rw [abs_of_nonneg (by norm_num)]; norm_num) (by norm_num [newtonStep])]
  rw [show (28 : ℕ) = 27 + 1 from rfl,
    newtonIter_go 27 4 (41 / 20) (3281 / 1640)
      (by rw [abs_of_nonneg (by norm_num)]; norm_num) (by norm_num [newtonStep])]
  rw [show (27 : ℕ) = 26 + 1 from rfl,
    newtonIter_go 26 4 (3281 / 1640) (21523361 / 10761680)
      (by rw [abs_of_nonneg (by norm_num)]; norm_num) (by norm_num [newtonStep])]
  rw [show (26 : ℕ) = 25 + 1 from rfl,
    newtonIter_go 25 4 (21523361 / 10761680) (926510094425921 / 463255047212960)
      (by rw [abs_of_nonneg (by norm_num)]; norm_num) (by norm_num [newtonStep])]
  rw [show (25 : ℕ) = 24 + 1 from rfl,
    newtonIter_go 24 4 (926510094425921 / 463255047212960)
      (1716841910146256242328924544641 / 858420955073128121164462272320)
      (by rw [abs_of_nonneg (by norm_num)]; norm_num) (by norm_num [newtonStep])]
  rw [show (24 : ℕ) = 23 + 1 from rfl,
    newtonIter_stop 23 4 _ (by rw [abs_of_nonneg (by norm_num)]; norm_num)]

/-- C6: the fallback square root of 4 is within 1e-9 of 2, the input -1
raises `NumericDomainError`, and so does every negative input. -/
theorem fallbackSqrt_four_and_negative :
    (∃ r, fallbackSqrt 4 = .ok r ∧ |r - 2| ≤ 1 / 10 ^ 9) ∧
    fallbackSqrt (-1) = .error (.negativeSqrt (-1)) ∧
    ∀ a : ℚ, a < 0 → fallbackSqrt a = .error (.negativeSqrt a) := by
  refine ⟨⟨1716841910146256242328924544641 / 858420955073128121164462272320,
    ?_, ?_⟩, ?_, ?_⟩
  · rw [show fallbackSqrt 4 = .ok (newtonIter 30 4 (max 4 1)) from rfl,
      newtonIter_four_value]
  · rw [abs_of_nonneg (by norm_num)]
    norm_num
  · simp only [fallbackSqrt, if_pos (show (-1 : ℚ) < 0 from by norm_num)]
  · intro a ha
    simp only [fallbackSqrt, if_pos ha]

/-- Witness for C6 at the concrete negative input -9/4. -/
theorem fallbackSqrt_negative_witness :
    (-9 / 4 : ℚ) < 0 ∧
    fallbackSqrt (-9 / 4) = .error (.negativeSqrt (-9 / 4)) :=
  ⟨by norm_num, fallbackSqrt_four_and_negative.2.2 (-9 / 4) (by norm_num)⟩

/-- The parse result of one command-line token group in the fallback
option parser. -/
inductive ParsedArg
  | flag (c : Char)
  | option (c : Char) (value : List Char)
  | positional (t : List Char)
deriving DecidableEq

/-- Modelled from the spec: the minimal fallback option parser selected
when the option-parser capability is absent. It supports short
single-character options only: a short option whose character takes an
argument consumes the following token as its value, any other short
option is a boolean flag, a token not starting with a dash is kept as a
positional argument, and any long-form token starting with a double dash
is rejected with a caller-visible `ConfigurationError`. The recognizer of
long-form tokens (those starting with a double dash): -/
def isLongOpt : List Char → Bool
  | '-' :: '-' :: _ => true
  | _ => false

/-- The recognizer of short single-character option tokens: a dash
followed by exactly one character yields that character. -/
def shortOptChar : List Char → Option Char
  | ['-', c] => if c = '-' then none else some c
  | _ => none

/-- Modelled from the spec: the fallback parser proper, folding over the
token list with the long-form guard applied to each token. -/
def parseArgsFallback (takesArg : Char → Bool) :
    List (List Char) → Except ConfigurationError (List ParsedArg)
  | [] => .ok []
  | t :: rest =>
    if isLongOpt t then .error (.longOptionUnsupported t)
    else match shortOptChar t with
    | some c =>
      if takesArg c then
        match rest with
        | [] => .error (.missingOptionValue c)
        | v :: rest2 => (parseArgsFallback takesArg rest2).map (ParsedArg.option c v :: ·)
      else
        (parseArgsFallback takesArg rest).map (ParsedArg.flag c :: ·)
    | none => (parseArgsFallback takesArg rest).map (ParsedArg.positional t :: ·)

/-- The argument-taking predicate of the host CLI example: only the
option character o expects a value. -/
def takesValueO : Char → Bool := fun c => c == 'o'

/-- C7: with the option-parser capability unavailable in the shipped
descriptor, the fallback parser parses the short boolean flag -v and the
argument-bearing option -o value correctly, and every long-form token
starting with a double dash is rejected with a caller-visible
`ConfigurationError` rather than silently ignored. -/
theorem fallbackParser_short_ok_long_rejected :
    isAvailable shippedDescriptor "HAVE_GETOPT" = .ok false ∧
    parseArgsFallback takesValueO [['-', 'v']] = .ok [.flag 'v'] ∧
    parseArgsFallback takesValueO [['-', 'o'], ['v', 'a', 'l', 'u', 'e']] =
      .ok [.option 'o' ['v', 'a', 'l', 'u', 'e']] ∧
    ∀ (s : List Char) (rest : List (List Char)),
      parseArgsFallback takesValueO (('-' :: '-' :: s) :: rest) =
        .error (.longOptionUnsupported ('-' :: '-' :: s)) := by
  refine ⟨rfl, by decide, by decide, ?_⟩
  intro s rest
  rw [parseArgsFallback,
    if_pos (show isLongOpt ('-' :: '-' :: s) = true from rfl)]

end MeshcoreConfig
